import Mathlib

/-!
Verification of the agent-ping session/routing/delivery engine.

This file gives a shallow embedding, in Lean 4, of the pure core of the
agent-ping messaging gateway (session-key derivation, identity linking,
binding resolution, the inbound and outbound pipelines over an explicit
store state, the outbox claim/backoff logic and the WebSocket fan-out
state machine), together with theorems settling the specification claims.

Conventions of the embedding:
* Rust `String` maps to `String`, `Option<T>` to `Option T`,
  `HashMap<String, Vec<String>>` (the identity-link table, iterated in a
  fixed order per map instance) to an association list.
* `serde_json::Value` maps to the inductive `Json` below.
* Database rows live in plain lists; every SQL statement of `db.rs` is
  embedded as a pure list transformation with the same logical contract
  (storage errors are not modelled, so storage operations are infallible).
* External I/O (channel adapters, media rehoming, the backend webhook) is
  passed in as oracle parameters.
* Timestamps are `Int` seconds, matching the integer-seconds columns.
-/

set_option maxRecDepth 4000

namespace AgentPing

/-- A minimal model of `serde_json::Value`. -/
inductive Json where
  | null : Json
  | bool (b : Bool) : Json
  | num (n : Int) : Json
  | str (s : String) : Json
  | arr (xs : List Json) : Json
  | obj (fields : List (String × Json)) : Json

/-- Serialize an optional string the way serde does (`null` for `None`). -/
def optStr : Option String → Json
  | some s => .str s
  | none => .null

/-! ## session.rs -/

/-- `session::normalize_token`: trim whitespace and lowercase. Embedded
structurally over the character list (dropping whitespace from both ends,
then lowercasing each character) so that it is kernel-computable. -/
def normalize_token (value : String) : String :=
  ⟨(((value.data.dropWhile Char.isWhitespace).reverse.dropWhile
      Char.isWhitespace).reverse).map Char.toLower⟩

/-- Configuration record `config::SessionConfig`. -/
structure SessionConfig where
  agent_id : String
  dm_scope : String
  main_key : String
  identity_links : List (String × List String)

/-- `session::resolve_identity_link`: scan the link table for an alias equal
to the normalized peer id or to its channel-scoped form, returning the
normalized canonical name of the first matching entry. -/
def resolve_identity_link (links : List (String × List String))
    (channel : String) (peer_id : String) : Option String :=
  let peer_norm := normalize_token peer_id
  if peer_norm.isEmpty then none
  else
    let channel_norm := normalize_token channel
    let scopedAlias := if channel_norm.isEmpty then peer_norm
      else channel_norm ++ ":" ++ peer_norm
    links.findSome? fun entry =>
      if entry.2.any (fun value =>
          normalize_token value == peer_norm || normalize_token value == scopedAlias)
      then some (normalize_token entry.1)
      else none

/-- `session::build_session_key`, embedded line by line from the source. -/
def build_session_key (cfg : SessionConfig) (channel : String)
    (account_id : Option String) (peer_kind : String) (peer_id : String)
    (thread_id : Option String) : String :=
  let agent_id := normalize_token cfg.agent_id
  let main_key := normalize_token cfg.main_key
  let channel := normalize_token channel
  let peer_id := normalize_token peer_id
  let account_id := (account_id.map normalize_token).getD "default"
  let dm_scope := cfg.dm_scope
  if peer_kind = "dm" then
    let key_peer :=
      if dm_scope ≠ "main" ∧ ¬cfg.identity_links.isEmpty then
        (resolve_identity_link cfg.identity_links channel peer_id).getD peer_id
      else peer_id
    if dm_scope = "per-peer" then
      "agent:" ++ agent_id ++ ":dm:" ++ key_peer
    else if dm_scope = "per-channel-peer" then
      "agent:" ++ agent_id ++ ":" ++ channel ++ ":dm:" ++ key_peer
    else if dm_scope = "per-account-channel-peer" then
      "agent:" ++ agent_id ++ ":" ++ channel ++ ":" ++ account_id ++ ":dm:" ++ key_peer
    else
      "agent:" ++ agent_id ++ ":" ++ main_key
  else
    let base := "agent:" ++ agent_id ++ ":" ++ channel ++ ":" ++ peer_kind ++ ":" ++ peer_id
    match thread_id with
    | some thread =>
      let thread := normalize_token thread
      if thread.isEmpty then base else base ++ ":thread:" ++ thread
    | none => base

/-! ## Specification-side session-key definitions (for the refinement claim C3) -/

/-- Join non-empty segment lists with `:` separators. Used only by the
specification-side key definitions. -/
def joinColon : List String → String
  | [] => ""
  | [x] => x
  | x :: xs => x ++ ":" ++ joinColon xs

/-- Specification-side DM peer token: the peer resolved through the Identity
Resolver when `dm_scope` is not `main` and a link table is configured,
defaulting to the raw normalized peer id. -/
def dmPeerToken (cfg : SessionConfig) (channel_norm peer_norm : String) : String :=
  if cfg.dm_scope ≠ "main" ∧ ¬cfg.identity_links.isEmpty then
    (resolve_identity_link cfg.identity_links channel_norm peer_norm).getD peer_norm
  else peer_norm

/-- The session key exactly as claim C3 words it: every segment, including
the peer-kind segment of non-DM keys, is normalized (trim + lowercase). -/
def session_key_claimed (cfg : SessionConfig) (channel : String)
    (account_id : Option String) (peer_kind : String) (peer_id : String)
    (thread_id : Option String) : String :=
  let agent := normalize_token cfg.agent_id
  let ch := normalize_token channel
  let acct := match account_id with
    | some a => normalize_token a
    | none => "default"
  let pid := normalize_token peer_id
  if peer_kind = "dm" then
    let peer := dmPeerToken cfg ch pid
    if cfg.dm_scope = "per-peer" then joinColon ["agent", agent, "dm", peer]
    else if cfg.dm_scope = "per-channel-peer" then joinColon ["agent", agent, ch, "dm", peer]
    else if cfg.dm_scope = "per-account-channel-peer" then
      joinColon ["agent", agent, ch, acct, "dm", peer]
    else joinColon ["agent", agent, normalize_token cfg.main_key]
  else
    let base := joinColon ["agent", agent, ch, normalize_token peer_kind, pid]
    let thr := (thread_id.map normalize_token).getD ""
    if thr.isEmpty then base else base ++ ":thread:" ++ thr

/-- The session key as claim C3 must be amended: identical to
`session_key_claimed` except that the peer-kind segment of non-DM keys is
used verbatim (the source never normalizes it). -/
def session_key_spec (cfg : SessionConfig) (channel : String)
    (account_id : Option String) (peer_kind : String) (peer_id : String)
    (thread_id : Option String) : String :=
  let agent := normalize_token cfg.agent_id
  let ch := normalize_token channel
  let acct := match account_id with
    | some a => normalize_token a
    | none => "default"
  let pid := normalize_token peer_id
  if peer_kind = "dm" then
    let peer := dmPeerToken cfg ch pid
    if cfg.dm_scope = "per-peer" then joinColon ["agent", agent, "dm", peer]
    else if cfg.dm_scope = "per-channel-peer" then joinColon ["agent", agent, ch, "dm", peer]
    else if cfg.dm_scope = "per-account-channel-peer" then
      joinColon ["agent", agent, ch, acct, "dm", peer]
    else joinColon ["agent", agent, normalize_token cfg.main_key]
  else
    let base := joinColon ["agent", agent, ch, peer_kind, pid]
    let thr := (thread_id.map normalize_token).getD ""
    if thr.isEmpty then base else base ++ ":thread:" ++ thr

/-! ## Binding resolution (lib.rs, `resolve_binding`) -/

/-- Configuration record `config::Binding`. -/
structure Binding where
  channel : String
  account_id : Option String
  peer_id : Option String
  business_profile_id : Option String
  user_id : Option String
  agent_id : Option String

/-- Result record `BindingMatch` of `lib.rs`. -/
structure BindingMatch where
  business_profile_id : Option String
  user_id : Option String
  agent_id : Option String
deriving DecidableEq

/-- The candidate filter of `resolve_binding`: channel must match exactly and
each set `account_id` / `peer_id` must equal the inbound value; unset fields
are wildcards. -/
def bindingMatches (b : Binding) (channel : String)
    (account_id peer_id : Option String) : Bool :=
  b.channel == channel &&
  (match b.account_id with
   | some bind_account => account_id == some bind_account
   | none => true) &&
  (match b.peer_id with
   | some bind_peer => peer_id == some bind_peer
   | none => true)

/-- The specificity score of `resolve_binding`: +2 for a set `account_id`,
+2 for a set `peer_id`. -/
def bindingScore (b : Binding) : Nat :=
  (if b.account_id.isSome then 2 else 0) + (if b.peer_id.isSome then 2 else 0)

/-- The `for binding in bindings` loop of `resolve_binding`, carrying the
`best: Option<(i32, &Binding)>` accumulator; the accumulator is replaced only
when the new score is strictly greater. -/
def resolveBindingLoop (channel : String) (account_id peer_id : Option String)
    (best : Option (Nat × Binding)) : List Binding → Option (Nat × Binding)
  | [] => best
  | b :: rest =>
    if bindingMatches b channel account_id peer_id then
      let score := bindingScore b
      if (match best with
          | some (s, _) => decide (score > s)
          | none => true) then
        resolveBindingLoop channel account_id peer_id (some (score, b)) rest
      else
        resolveBindingLoop channel account_id peer_id best rest
    else
      resolveBindingLoop channel account_id peer_id best rest

/-- `lib.rs` `resolve_binding`: the best-scoring matching binding's tenant
attributes, or all-absent attributes when nothing matches. -/
def resolve_binding (bindings : List Binding) (channel : String)
    (account_id peer_id : Option String) : BindingMatch :=
  match resolveBindingLoop channel account_id peer_id none bindings with
  | some (_, b) => ⟨b.business_profile_id, b.user_id, b.agent_id⟩
  | none => ⟨none, none, none⟩

/-- Specification-side: the highest specificity score among a binding list. -/
def maxBindingScore (l : List Binding) : Nat :=
  l.foldr (fun b m => max (bindingScore b) m) 0

/-- Specification-side: the earliest-encountered binding attaining the
strictly highest score (claim C4's words: ties keep the earlier binding). -/
def specPickBinding (l : List Binding) : Option Binding :=
  l.find? (fun b => bindingScore b == maxBindingScore l)

/-- Proof helper: the strictly-greater left-to-right scan that
`resolveBindingLoop` performs once a first matching binding is installed. -/
def scanMax (b : Binding) : List Binding → Binding
  | [] => b
  | x :: t => if bindingScore x > bindingScore b then scanMax x t else scanMax b t

/-! ## Data model records (types.rs, db.rs) -/

/-- `types::Attachment`. -/
structure Attachment where
  id : Option String
  url : String
  mime_type : Option String
  filename : Option String
  size : Option Int

/-- `types::InboundMessage`. -/
structure InboundMessage where
  inbound_id : String
  channel : String
  account_id : Option String
  peer_id : String
  peer_kind : String
  thread_id : Option String
  message_id : Option String
  sender_name : Option String
  text : Option String
  attachments : List Attachment
  timestamp : Option String

/-- `types::OutboundMessage`. -/
structure OutboundMessage where
  session_key : String
  text : Option String
  attachments : List Attachment
  channel : Option String
  account_id : Option String
  peer_id : Option String
  reply_to : Option String

/-- `types::RouteInfo`. -/
structure RouteInfo where
  channel : String
  account_id : Option String
  peer_id : Option String
  thread_id : Option String
deriving DecidableEq

/-- The `last_route` JSON object written by the inbound pipeline and read
back field-by-field (with `as_str` defaults) by the outbound pipeline. -/
structure RouteData where
  channel : Option String
  account_id : Option String
  peer_id : Option String
  thread_id : Option String

/-- `db::SessionRecord`. -/
structure SessionRecord where
  session_key : String
  agent_id : String
  business_profile_id : Option String
  user_id : Option String
  last_route : Option RouteData
  dm_scope : String
  identity_links : Option Json
  created_at : Int
  updated_at : Int

/-- `db::MessageRecord`. -/
structure MessageRecord where
  id : String
  session_key : String
  direction : String
  channel : String
  account_id : Option String
  peer_id : Option String
  content : Option String
  attachments : Option Json
  status : String
  dedupe_key : Option String
  created_at : Int

/-- `db::OutboxRecord`. -/
structure OutboxRecord where
  id : String
  payload : Json
  status : String
  retry_count : Int
  next_attempt_at : Int
  last_error : Option String
  created_at : Int

/-- The `messages` table DDL from `db::init_db`, as schema data: column list,
primary key, declared UNIQUE constraints, and the secondary indexes with
their uniqueness flag. `init_db` creates only plain (non-unique) indexes on
the `messages` table. -/
structure TableSchema where
  name : String
  columns : List String
  primaryKey : List String
  uniqueConstraints : List (List String)
  indexes : List (String × List String × Bool)

/-- The `messages` table as created by `db::init_db`: no UNIQUE constraint
and no unique index exists on `dedupe_key` (the only uniqueness in the table
is the `id` primary key). -/
def messagesTable : TableSchema :=
  { name := "messages"
    columns := ["id", "session_key", "direction", "channel", "account_id",
                "peer_id", "content", "attachments", "status", "dedupe_key",
                "created_at"]
    primaryKey := ["id"]
    uniqueConstraints := []
    indexes := [("idx_messages_session", ["session_key", "created_at"], false),
                ("idx_messages_dedupe", ["dedupe_key"], false)] }

/-! ## Storage operations (db.rs) over list states -/

/-- `db::upsert_session` (`INSERT .. ON CONFLICT(session_key) DO UPDATE`):
replace every field except `created_at` when the key exists, else append. -/
def upsert_session (sessions : List SessionRecord) (record : SessionRecord) :
    List SessionRecord :=
  if sessions.any (fun s => s.session_key == record.session_key) then
    sessions.map fun s =>
      if s.session_key == record.session_key then
        { record with created_at := s.created_at }
      else s
  else sessions ++ [record]

/-- `db::get_session` (`SELECT .. WHERE session_key = ?`). -/
def get_session (sessions : List SessionRecord) (session_key : String) :
    Option SessionRecord :=
  sessions.find? fun s => s.session_key == session_key

/-- `db::insert_message`: a plain `INSERT`; the schema `messagesTable`
carries no uniqueness constraint on `dedupe_key`, so the insert never
rejects a duplicate dedupe key. -/
def insert_message (messages : List MessageRecord) (record : MessageRecord) :
    List MessageRecord :=
  messages ++ [record]

/-- `db::message_dedupe_exists` (`SELECT 1 .. WHERE dedupe_key = ? LIMIT 1`). -/
def message_dedupe_exists (messages : List MessageRecord) (dedupe_key : String) :
    Bool :=
  messages.any fun m => m.dedupe_key == some dedupe_key

/-- `db::insert_outbox`: append a fresh pending item with `retry_count = 0`. -/
def insert_outbox (outbox : List OutboxRecord) (id : String) (payload : Json)
    (next_attempt_at : Int) (now : Int) : List OutboxRecord :=
  outbox ++ [{ id
               payload
               status := "pending"
               retry_count := 0
               next_attempt_at
               last_error := none
               created_at := now }]

/-! ## Outbox claim and backoff (db.rs `claim_outbox_batch`, outbox.rs) -/

/-- The `WHERE status IN ('pending','failed') AND next_attempt_at <= ?`
eligibility filter of `claim_outbox_batch`. -/
def eligibleOutbox (now : Int) (r : OutboxRecord) : Bool :=
  (r.status == "pending" || r.status == "failed") && r.next_attempt_at ≤ now

/-- The `ORDER BY created_at ASC` comparison of `claim_outbox_batch`. -/
def createdLE (a b : OutboxRecord) : Prop :=
  a.created_at ≤ b.created_at

instance : DecidableRel createdLE := fun a b => Int.decLe a.created_at b.created_at

instance : IsTotal OutboxRecord createdLE :=
  ⟨fun a b => Int.le_total a.created_at b.created_at⟩

instance : IsTrans OutboxRecord createdLE :=
  ⟨fun _ _ _ hab hbc => le_trans hab hbc⟩

/-- `db::claim_outbox_batch`: select up to `limit` eligible rows ordered by
`created_at` ascending, then (if any were selected) update those rows to
`status='sending', last_error=NULL`. Returns the selected rows (with their
pre-update status, as the SQL SELECT snapshot does) and the updated store. -/
def claim_outbox_batch (store : List OutboxRecord) (now : Int) (limit : Nat) :
    List OutboxRecord × List OutboxRecord :=
  let rows := (List.insertionSort createdLE (store.filter (eligibleOutbox now))).take limit
  if rows.isEmpty then (rows, store)
  else
    let ids := rows.map fun r => r.id
    (rows, store.map fun r =>
      if ids.contains r.id then { r with status := "sending", last_error := none }
      else r)

/-- `db::mark_outbox_delivered`. -/
def mark_outbox_delivered (store : List OutboxRecord) (id : String) :
    List OutboxRecord :=
  store.map fun r => if r.id == id then { r with status := "delivered" } else r

/-- `db::mark_outbox_failed`. -/
def mark_outbox_failed (store : List OutboxRecord) (id : String)
    (retry_count : Int) (next_attempt_at : Int) (error : String) :
    List OutboxRecord :=
  store.map fun r =>
    if r.id == id then
      { r with status := "failed", retry_count, next_attempt_at,
               last_error := some error }
    else r

/-- `outbox::compute_backoff`, in whole seconds:
`min(5 * 2^min(max(retry_count,1) - 1, 8), 300)`. -/
def compute_backoff (retry_count : Int) : Int :=
  let exponent := min (max retry_count 1 - 1) 8
  let base : Int := 2 ^ exponent.toNat
  min (base * 5) 300

/-! ## Gateway state and the inbound/outbound pipelines (lib.rs) -/

/-- Process-wide configuration slice used by the pipelines. -/
structure AppConfig where
  session : SessionConfig
  bindings : List Binding
  debounce_ms : Int
  slack_bot_token : Option String
  telegram_bot_token : Option String

/-- `ws::WsEvent`. -/
structure WsEvent where
  event : String
  payload : Json

/-- The store plus the observable side effects of one pipeline invocation:
the broadcast events published on `ws_tx` and the adapter sends that
succeeded. -/
structure GatewayState where
  sessions : List SessionRecord
  messages : List MessageRecord
  outbox : List OutboxRecord
  events : List WsEvent
  sent : List (RouteInfo × OutboundMessage)

/-- serde serialization of one attachment. -/
def attachmentJson (a : Attachment) : Json :=
  .obj [("id", optStr a.id), ("url", .str a.url), ("mime_type", optStr a.mime_type),
        ("filename", optStr a.filename),
        ("size", match a.size with | some n => .num n | none => .null)]

/-- serde serialization of an attachment list. -/
def attachmentsJson (l : List Attachment) : Json :=
  .arr (l.map attachmentJson)

/-- serde serialization of the identity-link table. -/
def linksJson (links : List (String × List String)) : Json :=
  .obj (links.map fun e => (e.1, .arr (e.2.map Json.str)))

/-- serde serialization of a stored message row (used in `chat` events). -/
def messageRecordJson (m : MessageRecord) : Json :=
  .obj [("id", .str m.id), ("session_key", .str m.session_key),
        ("direction", .str m.direction), ("channel", .str m.channel),
        ("account_id", optStr m.account_id), ("peer_id", optStr m.peer_id),
        ("content", optStr m.content),
        ("attachments", (m.attachments).getD .null),
        ("status", .str m.status), ("dedupe_key", optStr m.dedupe_key)]

/-- The `dedupe_key = "{channel}:{peer_id}:{message_id}"` format of
`handle_inbound`. -/
def mkDedupeKey (channel peer_id message_id : String) : String :=
  channel ++ ":" ++ peer_id ++ ":" ++ message_id

/-- The session record `handle_inbound` upserts: current route and tenant
attributes, with the binding's agent id falling back to the configured
default agent id. -/
def inboundSessionRecord (cfg : AppConfig) (inbound : InboundMessage)
    (now : Int) : SessionRecord :=
  let session_key := build_session_key cfg.session inbound.channel
    inbound.account_id inbound.peer_kind inbound.peer_id inbound.thread_id
  let binding := resolve_binding cfg.bindings inbound.channel
    inbound.account_id (some inbound.peer_id)
  let agent_id := binding.agent_id.or (some cfg.session.agent_id)
  { session_key
    agent_id := agent_id.getD "main"
    business_profile_id := binding.business_profile_id
    user_id := binding.user_id
    last_route := some { channel := some inbound.channel
                         account_id := inbound.account_id
                         peer_id := some inbound.peer_id
                         thread_id := inbound.thread_id }
    dm_scope := cfg.session.dm_scope
    identity_links := if cfg.session.identity_links.isEmpty then none
      else some (linksJson cfg.session.identity_links)
    created_at := now
    updated_at := now }

/-- The JSON envelope `handle_inbound` enqueues for the backend. -/
def inboundEnvelope (inbound : InboundMessage) (session_key : String)
    (attachments : List Attachment) (session_record : SessionRecord) : Json :=
  .obj [("inbound_id", .str inbound.inbound_id),
        ("session_key", .str session_key),
        ("channel", .str inbound.channel),
        ("peer_id", .str inbound.peer_id),
        ("peer_kind", .str inbound.peer_kind),
        ("thread_id", optStr inbound.thread_id),
        ("message_id", optStr inbound.message_id),
        ("sender_name", optStr inbound.sender_name),
        ("text", optStr inbound.text),
        ("attachments", attachmentsJson attachments),
        ("timestamp", optStr inbound.timestamp),
        ("business_profile_id", optStr session_record.business_profile_id),
        ("user_id", optStr session_record.user_id),
        ("agent_id", .str session_record.agent_id)]

/-- `lib.rs` `handle_inbound`, embedded sequentially. External inputs that
the Rust code obtains effectfully are parameters: `rehome` is the
`upload_media` collaborator (applied only when attachments are present),
`newMsgId`/`newOutboxId` are the freshly generated UUIDs, `now` the clock.
Storage operations are infallible in this model, so the result is always
`Except.ok`. -/
def handle_inbound (cfg : AppConfig) (st : GatewayState)
    (inbound : InboundMessage) (rehome : List Attachment → List Attachment)
    (newMsgId newOutboxId : String) (now : Int) :
    Except String Unit × GatewayState :=
  let session_key := build_session_key cfg.session inbound.channel
    inbound.account_id inbound.peer_kind inbound.peer_id inbound.thread_id
  let session_record := inboundSessionRecord cfg inbound now
  let st1 := { st with sessions := upsert_session st.sessions session_record }
  let dedupeHit := match inbound.message_id with
    | some mid =>
      message_dedupe_exists st1.messages (mkDedupeKey inbound.channel inbound.peer_id mid)
    | none => false
  if dedupeHit then (.ok (), st1)
  else
    let attachments := if inbound.attachments.isEmpty then inbound.attachments
      else rehome inbound.attachments
    let dedupe_key := inbound.message_id.map
      (mkDedupeKey inbound.channel inbound.peer_id)
    let record : MessageRecord :=
      { id := newMsgId
        session_key
        direction := "inbound"
        channel := inbound.channel
        account_id := inbound.account_id
        peer_id := some inbound.peer_id
        content := inbound.text
        attachments := some (attachmentsJson attachments)
        status := "received"
        dedupe_key
        created_at := now }
    let st2 := { st1 with messages := insert_message st1.messages record }
    let payload := inboundEnvelope inbound session_key attachments session_record
    let st3 := { st2 with
      outbox := insert_outbox st2.outbox newOutboxId payload (now + cfg.debounce_ms) now }
    let st4 := { st3 with
      events := st3.events ++
        [{ event := "chat"
           payload := .obj [("direction", .str "inbound"),
                            ("message", messageRecordJson record)] }] }
    (.ok (), st4)

/-- The route-resolution step of `handle_outbound`: an explicit channel in
the request wins outright (with no thread id); otherwise the session's
stored last route is reused field by field (`as_str` with an empty-string
default for the channel); otherwise an addressing error. -/
def resolve_route (session : Option SessionRecord) (outbound : OutboundMessage) :
    Except String RouteInfo :=
  match outbound.channel with
  | some channel =>
    .ok { channel
          account_id := outbound.account_id
          peer_id := outbound.peer_id
          thread_id := none }
  | none =>
    match session with
    | some s =>
      match s.last_route with
      | some lr =>
        .ok { channel := lr.channel.getD ""
              account_id := lr.account_id
              peer_id := lr.peer_id
              thread_id := lr.thread_id }
      | none => .error "no route for session"
    | none => .error "unknown session"

/-- `lib.rs` `send_via_channel`: per-channel token/peer checks and then the
external adapter call (the `adapter` oracle). -/
def send_via_channel (cfg : AppConfig) (route : RouteInfo)
    (outbound : OutboundMessage)
    (adapter : RouteInfo → OutboundMessage → Except String Unit) :
    Except String Unit :=
  if route.channel = "slack" then
    match cfg.slack_bot_token with
    | none => .error "slack token missing"
    | some _ =>
      match route.peer_id with
      | none => .error "slack peer missing"
      | some _ => adapter route outbound
  else if route.channel = "telegram" then
    match cfg.telegram_bot_token with
    | none => .error "telegram token missing"
    | some _ =>
      match route.peer_id with
      | none => .error "telegram peer missing"
      | some _ => adapter route outbound
  else if route.channel = "whatsapp" then
    match route.peer_id with
    | none => .error "whatsapp peer missing"
    | some _ => adapter route outbound
  else .error "unsupported channel"

/-- `lib.rs` `handle_outbound`: look up the session, resolve the route,
persist the outbound message row (status `queued`) before dispatching,
dispatch through the channel adapter, and publish a `chat` event on
success. On a route-resolution error nothing is persisted, dispatched or
published. -/
def handle_outbound (cfg : AppConfig) (st : GatewayState)
    (outbound : OutboundMessage) (newMsgId : String) (now : Int)
    (adapter : RouteInfo → OutboundMessage → Except String Unit) :
    Except String String × GatewayState :=
  let session := get_session st.sessions outbound.session_key
  match resolve_route session outbound with
  | .error e => (.error e, st)
  | .ok route =>
    let record : MessageRecord :=
      { id := newMsgId
        session_key := outbound.session_key
        direction := "outbound"
        channel := route.channel
        account_id := route.account_id
        peer_id := route.peer_id
        content := outbound.text
        attachments := some (attachmentsJson outbound.attachments)
        status := "queued"
        dedupe_key := none
        created_at := now }
    let st1 := { st with messages := insert_message st.messages record }
    match send_via_channel cfg route outbound adapter with
    | .error e => (.error e, st1)
    | .ok _ =>
      let st2 := { st1 with
        sent := st1.sent ++ [(route, outbound)]
        events := st1.events ++
          [{ event := "chat"
             payload := .obj [("direction", .str "outbound"),
                              ("message", messageRecordJson record)] }] }
      (.ok newMsgId, st2)

/-! ## WebSocket fan-out state machine (ws.rs `handle_ws`) -/

/-- `ws::WsCommand`. -/
inductive WsCommand where
  | connect (token : Option String) : WsCommand
  | subscribe (events : Option (List String)) : WsCommand
  | ping : WsCommand

/-- One iteration's input to the `tokio::select!` loop of `handle_ws`:
either a socket frame (a parsed command, an unparseable text frame, a close
frame, transport closure) or a broadcast event from the hub. -/
inductive WsInput where
  | cmd (c : WsCommand) : WsInput
  | badText : WsInput
  | closeFrame : WsInput
  | disconnect : WsInput
  | event (e : WsEvent) : WsInput

/-- What `handle_ws` writes to the socket: direct command replies
(`presence` ack, `health`), forwarded broadcast events, or a close frame. -/
inductive WsOutput where
  | reply (e : WsEvent) : WsOutput
  | forward (e : WsEvent) : WsOutput
  | closeMsg : WsOutput

/-- The per-connection mutable state of `handle_ws`: the `authorized` flag,
the optional subscription allow-list, and whether the loop has exited. -/
structure WsState where
  authorized : Bool
  subscriptions : Option (List String)
  closed : Bool

/-- The initial state of `handle_ws`: authorized exactly when no auth token
is configured; no allow-list. -/
def initWsState (auth_token : Option String) : WsState :=
  { authorized := auth_token.isNone, subscriptions := none, closed := false }

/-- The `presence` acknowledgement sent on a successful connect. -/
def presenceEvent : WsEvent :=
  { event := "presence", payload := .obj [("status", .str "connected")] }

/-- The `health` reply sent for a ping. -/
def healthEvent : WsEvent :=
  { event := "health", payload := .obj [("status", .str "ok")] }

/-- One iteration of the `handle_ws` loop body. -/
def handle_ws_step (auth_token : Option String) (s : WsState) (i : WsInput) :
    WsState × List WsOutput :=
  match i with
  | .disconnect => ({ s with closed := true }, [])
  | .closeFrame => ({ s with closed := true }, [])
  | .badText => (s, [])
  | .cmd (.connect token) =>
    match auth_token with
    | some expected =>
      if token = some expected then
        ({ s with authorized := true }, [.reply presenceEvent])
      else
        ({ s with closed := true }, [.closeMsg])
    | none => ({ s with authorized := true }, [.reply presenceEvent])
  | .cmd (.subscribe events) => ({ s with subscriptions := events }, [])
  | .cmd .ping => (s, [.reply healthEvent])
  | .event e =>
    if !s.authorized then (s, [])
    else
      match s.subscriptions with
      | some subs => if e.event ∈ subs then (s, [.forward e]) else (s, [])
      | none => (s, [.forward e])

/-- The `handle_ws` loop over a sequence of inputs (one interleaving of
socket frames and broadcast receptions), collecting everything written to
the socket; the loop stops once the connection is closed. -/
def handle_ws_run (auth_token : Option String) (s : WsState) :
    List WsInput → WsState × List WsOutput
  | [] => (s, [])
  | i :: rest =>
    if s.closed then (s, [])
    else
      let step := handle_ws_step auth_token s i
      let tail := handle_ws_run auth_token step.1 rest
      (tail.1, step.2 ++ tail.2)

/-- The inbound-store invariant of claim C2: at most one stored inbound
message per non-null dedupe key. -/
def dedupeAtMostOnce (messages : List MessageRecord) : Prop :=
  ∀ k : String, (messages.filter (fun m => m.dedupe_key == some k)).length ≤ 1

/-- Concrete fixtures for the C2 counterexample: two inbound rows sharing
the dedupe key `slack:u1:m1`. -/
def c2row1 : MessageRecord :=
  { id := "11111111-1111-1111-1111-111111111111"
    session_key := "agent:main:dm:u1"
    direction := "inbound"
    channel := "slack"
    account_id := none
    peer_id := some "u1"
    content := some "hello"
    attachments := none
    status := "received"
    dedupe_key := some "slack:u1:m1"
    created_at := 100 }

/-- Second fixture row for the C2 counterexample (distinct id, same dedupe
key as `c2row1`). -/
def c2row2 : MessageRecord :=
  { c2row1 with id := "22222222-2222-2222-2222-222222222222" }

/-! # Theorems -/

/-- Claim C1: the session key builder is pure and deterministic — for every
agent configuration and input tuple, two invocations of `build_session_key`
with identical inputs return the identical key string; the function is total
(type `String`), so it has no failure mode, and the embedding is of
straight-line effect-free code. -/
theorem build_session_key_pure_deterministic :
    ∀ (cfg cfg2 : SessionConfig) (channel channel2 : String)
      (account_id account_id2 : Option String) (peer_kind peer_kind2 : String)
      (peer_id peer_id2 : String) (thread_id thread_id2 : Option String),
      cfg = cfg2 → channel = channel2 → account_id = account_id2 →
      peer_kind = peer_kind2 → peer_id = peer_id2 → thread_id = thread_id2 →
      build_session_key cfg channel account_id peer_kind peer_id thread_id =
        build_session_key cfg2 channel2 account_id2 peer_kind2 peer_id2 thread_id2 := by
  intros
  subst_vars
  rfl

/-- Witness for C1 at a concrete agent configuration and input tuple. -/
theorem build_session_key_pure_deterministic_witness :
    build_session_key ⟨"myagent", "per-peer", "main", []⟩ "slack" none "dm" "U123" none =
      build_session_key ⟨"myagent", "per-peer", "main", []⟩ "slack" none "dm" "U123" none :=
  build_session_key_pure_deterministic _ _ _ _ _ _ _ _ _ _ _ _
    rfl rfl rfl rfl rfl rfl

/-- Claim C7: the outbox backoff delay is
`min(300, 5 * 2^min(retry_count - 1, 8))` seconds, with `retry_count ≤ 0`
(and any retry count at most 1) floored to 5 seconds; the table 1 → 5s,
2 → 10s, 3 → 20s, 4 → 40s, 8 → 300s, 9 → 300s holds and the 300-second cap
applies from the 8th retry onward. -/
theorem compute_backoff_spec :
    ∀ r : Int,
      (r ≤ 0 → compute_backoff r = 5) ∧
      (r ≤ 1 → compute_backoff r = 5) ∧
      (1 ≤ r → compute_backoff r = min 300 (5 * 2 ^ (min (r - 1) 8).toNat)) ∧
      (8 ≤ r → compute_backoff r = 300) ∧
      compute_backoff 1 = 5 ∧ compute_backoff 2 = 10 ∧ compute_backoff 3 = 20 ∧
      compute_backoff 4 = 40 ∧ compute_backoff 8 = 300 ∧ compute_backoff 9 = 300 := by
  intro r
  refine ⟨?_, ?_, ?_, ?_, by decide, by decide, by decide, by decide, by decide, by decide⟩
  · intro h
    unfold compute_backoff
    have hmax : max r 1 = 1 := max_eq_right (by omega)
    rw [hmax]
    decide
  · intro h
    unfold compute_backoff
    have hmax : max r 1 = 1 := max_eq_right h
    rw [hmax]
    decide
  · intro h
    unfold compute_backoff
    have hmax : max r 1 = r := max_eq_left h
    rw [hmax, Int.mul_comm, Int.min_comm]
  · intro h
    unfold compute_backoff
    have hmax : max r 1 = r := max_eq_left (by omega)
    rw [hmax]
    have hn : 7 ≤ (min (r - 1) 8).toNat := by omega
    have hpow : (2 : Nat) ^ 7 ≤ 2 ^ (min (r - 1) 8).toNat :=
      Nat.pow_le_pow_right (by norm_num) hn
    have hcast : (128 : Int) ≤ 2 ^ (min (r - 1) 8).toNat := by exact_mod_cast hpow
    have h300 : (300 : Int) ≤ 2 ^ (min (r - 1) 8).toNat * 5 := by nlinarith
    exact min_eq_right h300

/-- Witness for C7: the floor at retry count 0 and the cap at retry 9,
via `compute_backoff_spec`. -/
theorem compute_backoff_spec_witness :
    compute_backoff 0 = 5 ∧ compute_backoff 9 = 300 :=
  ⟨(compute_backoff_spec 0).1 (by decide), (compute_backoff_spec 9).2.2.2.1 (by decide)⟩

/-- Claim C10: a `ping` command is answered in every connection state — the
step function replies with the `health` event `{status: "ok"}` and leaves
the state (in particular the `authorized` flag, which never gates ping
replies) unchanged. -/
theorem ping_always_answered :
    ∀ (auth_token : Option String) (s : WsState),
      handle_ws_step auth_token s (.cmd .ping) = (s, [.reply healthEvent]) :=
  fun _ _ => rfl

/-- Claim C5: for an inbound message whose dedupe key already exists in the
message store, the pipeline returns success having performed exactly the
session upsert (which always runs) and nothing else: messages, outbox,
events and adapter sends are untouched. -/
theorem inbound_dedupe_short_circuit
    (cfg : AppConfig) (st : GatewayState) (inbound : InboundMessage)
    (rehome : List Attachment → List Attachment) (newMsgId newOutboxId : String)
    (now : Int) (mid : String)
    (hmid : inbound.message_id = some mid)
    (hdup : message_dedupe_exists st.messages
      (mkDedupeKey inbound.channel inbound.peer_id mid) = true) :
    handle_inbound cfg st inbound rehome newMsgId newOutboxId now =
      (.ok (), { st with
        sessions := upsert_session st.sessions (inboundSessionRecord cfg inbound now) }) := by
  unfold handle_inbound
  simp [hmid, hdup]

/-- Witness fixture for C5: a store already holding the dedupe key
`slack:u1:m1`. -/
def c5State : GatewayState :=
  { sessions := [], messages := [c2row1], outbox := [], events := [], sent := [] }

/-- Witness fixture for C5: a redelivered inbound message with platform
message id `m1` from the same channel and peer. -/
def c5Inbound : InboundMessage :=
  { inbound_id := "in-2"
    channel := "slack"
    account_id := none
    peer_id := "u1"
    peer_kind := "dm"
    thread_id := none
    message_id := some "m1"
    sender_name := some "User"
    text := some "hello again"
    attachments := []
    timestamp := none }

/-- Witness fixture for C5/C6: a configuration with default session settings
and no bindings. -/
def cfgFixture : AppConfig :=
  { session := ⟨"main", "main", "main", []⟩
    bindings := []
    debounce_ms := 1000
    slack_bot_token := none
    telegram_bot_token := none }

/-- Witness for C5: the concrete duplicate delivery performs only the
session upsert. -/
theorem inbound_dedupe_short_circuit_witness :
    handle_inbound cfgFixture c5State c5Inbound id "m-id" "o-id" 200 =
      (.ok (), { c5State with
        sessions := upsert_session c5State.sessions
          (inboundSessionRecord cfgFixture c5Inbound 200) }) :=
  inbound_dedupe_short_circuit cfgFixture c5State c5Inbound id "m-id" "o-id" 200
    "m1" rfl rfl

/-- Claim C6: outbound route resolution — an explicit channel wins outright
with a `(channel, account, peer, no thread)` route regardless of the stored
session; otherwise the session's last route is reused; and when the session
is unknown, or known with no recorded route, the pipeline returns the
addressing error leaving the state untouched (no message row, no dispatch,
no event). -/
theorem outbound_route_resolution
    (cfg : AppConfig) (st : GatewayState) (outbound : OutboundMessage)
    (newMsgId : String) (now : Int)
    (adapter : RouteInfo → OutboundMessage → Except String Unit) :
    (∀ ch, outbound.channel = some ch →
      resolve_route (get_session st.sessions outbound.session_key) outbound =
        .ok { channel := ch, account_id := outbound.account_id,
              peer_id := outbound.peer_id, thread_id := none }) ∧
    (outbound.channel = none →
      get_session st.sessions outbound.session_key = none →
      handle_outbound cfg st outbound newMsgId now adapter =
        (.error "unknown session", st)) ∧
    (∀ s, outbound.channel = none →
      get_session st.sessions outbound.session_key = some s →
      s.last_route = none →
      handle_outbound cfg st outbound newMsgId now adapter =
        (.error "no route for session", st)) ∧
    (∀ s lr, outbound.channel = none →
      get_session st.sessions outbound.session_key = some s →
      s.last_route = some lr →
      resolve_route (get_session st.sessions outbound.session_key) outbound =
        .ok { channel := lr.channel.getD "", account_id := lr.account_id,
              peer_id := lr.peer_id, thread_id := lr.thread_id }) := by
  refine ⟨?_, ?_, ?_, ?_⟩
  · intro ch hch
    unfold resolve_route
    rw [hch]
  · intro hch hsess
    unfold handle_outbound
    rw [hsess]
    unfold resolve_route
    rw [hch]
  · intro s hch hsess hroute
    simp [handle_outbound, resolve_route, hch, hsess, hroute]
  · intro s lr hch hsess hroute
    simp [resolve_route, hch, hsess, hroute]

/-- Witness for C6: sending to an unknown session with no explicit channel
fails with the addressing error and leaves the state untouched. -/
theorem outbound_route_resolution_witness :
    handle_outbound cfgFixture
      ⟨[], [], [], [], []⟩
      ⟨"agent:main:dm:u9", some "hi", [], none, none, none, none⟩
      "m-id" 300 (fun _ _ => .ok ()) =
      (.error "unknown session", ⟨[], [], [], [], []⟩) :=
  (outbound_route_resolution cfgFixture ⟨[], [], [], [], []⟩
    ⟨"agent:main:dm:u9", some "hi", [], none, none, none, none⟩
    "m-id" 300 (fun _ _ => .ok ())).2.1 rfl rfl

/-- C2 counterexample: the `messages` table of `db::init_db` declares no
UNIQUE constraint and only non-unique indexes, and a duplicate insert with
an existing dedupe key is not rejected — the store ends with two inbound
rows sharing the non-null dedupe key `slack:u1:m1`. -/
theorem dedupe_unique_constraint_counterexample :
    messagesTable.uniqueConstraints = [] ∧
    (∀ idx ∈ messagesTable.indexes, idx.2.2 = false) ∧
    (insert_message [c2row1] c2row2).length = 2 ∧
    ((insert_message [c2row1] c2row2).filter
      (fun m => m.dedupe_key == some "slack:u1:m1")).length = 2 := by
  refine ⟨rfl, ?_, rfl, ?_⟩
  · intro idx hidx
    simp only [messagesTable, List.mem_cons, List.not_mem_nil, or_false] at hidx
    rcases hidx with h | h <;> rw [h]
  · rfl

/-- Claim C2 as amended: under sequential invocations the inbound pipeline
preserves the at-most-one-row-per-non-null-dedupe-key invariant via its
read-then-insert check alone (the storage layer itself has no uniqueness
constraint on the dedupe key: see the counterexample). -/
theorem inbound_preserves_dedupe_invariant
    (cfg : AppConfig) (st : GatewayState) (inbound : InboundMessage)
    (rehome : List Attachment → List Attachment) (newMsgId newOutboxId : String)
    (now : Int) (hinv : dedupeAtMostOnce st.messages) :
    dedupeAtMostOnce (handle_inbound cfg st inbound rehome newMsgId newOutboxId now).2.messages := by
  unfold handle_inbound
  cases hmid : inbound.message_id with
  | none =>
    intro k
    have := hinv k
    simp only [hmid, insert_message]
    simp [List.filter_append]
    omega
  | some mid =>
    cases hdup : message_dedupe_exists st.messages
        (mkDedupeKey inbound.channel inbound.peer_id mid) with
    | true =>
      simp only [hmid, hdup]
      simpa using hinv
    | false =>
      intro k
      simp only [hmid, hdup, insert_message]
      simp only [Bool.false_eq_true, if_false, List.filter_append, List.length_append]
      by_cases hk : mkDedupeKey inbound.channel inbound.peer_id mid = k
      · have hempty : st.messages.filter (fun m => m.dedupe_key == some k) = [] := by
          subst hk
          unfold message_dedupe_exists at hdup
          rw [List.any_eq_false] at hdup
          apply List.filter_eq_nil_iff.mpr
          intro m hm
          simpa using hdup m hm
        rw [hempty]
        subst hk
        simp
      · have := hinv k
        have hne : ((some (mkDedupeKey inbound.channel inbound.peer_id mid) :
            Option String) == some k) = false := by
          simp [hk]
        simp [hne]
        omega

/-- Witness for C2 (amended): the invariant is preserved on the concrete
duplicate redelivery of the C5 fixture. -/
theorem inbound_preserves_dedupe_invariant_witness :
    dedupeAtMostOnce (handle_inbound cfgFixture c5State c5Inbound id
      "m-id" "o-id" 200).2.messages :=
  inbound_preserves_dedupe_invariant cfgFixture c5State c5Inbound id
    "m-id" "o-id" 200 (by intro k; simp [c5State, c2row1, List.filter]; split <;> simp)

/-- C3 counterexample: claim C3 says all segments are normalized, but the
peer-kind segment of a non-DM key is used verbatim by the source: for
peer-kind `Thread` the code keeps the capital T while the claim's key shape
lowercases it. -/
theorem session_key_normalization_counterexample :
    build_session_key ⟨"myagent", "per-peer", "main", []⟩ "slack" none "Thread" "u456" none =
        "agent:myagent:slack:Thread:u456" ∧
    session_key_claimed ⟨"myagent", "per-peer", "main", []⟩ "slack" none "Thread" "u456" none =
        "agent:myagent:slack:thread:u456" ∧
    build_session_key ⟨"myagent", "per-peer", "main", []⟩ "slack" none "Thread" "u456" none ≠
      session_key_claimed ⟨"myagent", "per-peer", "main", []⟩ "slack" none "Thread" "u456" none := by
  refine ⟨rfl, rfl, ?_⟩
  decide

/-- Claim C3 as amended: `build_session_key` returns exactly the claimed key
shapes — DM shapes selected by `dm_scope` with the `per-account-channel-peer`
account segment defaulting to the literal `default`, a `main` fallback for
any other scope value, and the non-DM shape with the `:thread:` suffix
appended iff the normalized thread id is non-empty — with every segment
normalized except the peer-kind segment, which the source uses verbatim. -/
theorem build_session_key_matches_amended_spec
    (cfg : SessionConfig) (channel : String) (account_id : Option String)
    (peer_kind : String) (peer_id : String) (thread_id : Option String) :
    build_session_key cfg channel account_id peer_kind peer_id thread_id =
      session_key_spec cfg channel account_id peer_kind peer_id thread_id := by
  rcases account_id with _ | a <;> rcases thread_id with _ | t <;>
    (simp only [build_session_key, session_key_spec, dmPeerToken, joinColon,
      String.append_assoc]; rfl)

/-! ## C9: event fan-out gating lemmas -/

/-- A non-`connect` input can neither authorize the connection nor cause a
broadcast forward while the connection is unauthorized. -/
theorem step_unauthorized_no_forward (auth_token : Option String) (s : WsState)
    (i : WsInput) (hconn : ∀ tok, i ≠ .cmd (.connect tok))
    (hauth : s.authorized = false) :
    (handle_ws_step auth_token s i).1.authorized = false ∧
    ∀ e, WsOutput.forward e ∉ (handle_ws_step auth_token s i).2 := by
  cases i with
  | cmd c =>
    cases c with
    | connect tok => exact absurd rfl (hconn tok)
    | subscribe events => simp [handle_ws_step, hauth]
    | ping => simp [handle_ws_step, hauth]
  | badText => simp [handle_ws_step, hauth]
  | closeFrame => simp [handle_ws_step, hauth]
  | disconnect => simp [handle_ws_step, hauth]
  | event e => simp [handle_ws_step, hauth]

/-- Over a whole connect-free input sequence, an unauthorized connection
forwards no broadcast event (events are dropped, not queued). -/
theorem run_unauthorized_no_forward (auth_token : Option String) :
    ∀ (inputs : List WsInput) (s : WsState), s.authorized = false →
      (∀ i ∈ inputs, ∀ tok, i ≠ WsInput.cmd (.connect tok)) →
      ∀ e, WsOutput.forward e ∉ (handle_ws_run auth_token s inputs).2 := by
  intro inputs
  induction inputs with
  | nil => intro s _ _ e; simp [handle_ws_run]
  | cons i rest ih =>
    intro s hauth hconn e
    unfold handle_ws_run
    by_cases hcl : s.closed
    · simp [hcl]
    · simp only [hcl, if_neg, Bool.false_eq_true, not_false_eq_true, if_false]
      simp only [List.mem_append, not_or]
      constructor
      · exact (step_unauthorized_no_forward auth_token s i
          (hconn i (List.mem_cons_self i rest)) hauth).2 e
      · exact ih _ (step_unauthorized_no_forward auth_token s i
            (hconn i (List.mem_cons_self i rest)) hauth).1
          (fun j hj => hconn j (List.mem_cons_of_mem i hj)) e

/-- A non-`subscribe` input keeps the allow-list unchanged and forwards only
events whose name is in the current allow-list. -/
theorem step_allowlist (auth_token : Option String) (s : WsState) (i : WsInput)
    (l : List String) (hsub : s.subscriptions = some l)
    (hns : ∀ ev, i ≠ .cmd (.subscribe ev)) :
    (handle_ws_step auth_token s i).1.subscriptions = some l ∧
    ∀ e, WsOutput.forward e ∈ (handle_ws_step auth_token s i).2 → e.event ∈ l := by
  cases i with
  | cmd c =>
    cases c with
    | connect tok =>
      cases auth_token with
      | some expected =>
        by_cases htok : tok = some expected
        · simp [handle_ws_step, htok, hsub]
        · simp [handle_ws_step, htok, hsub]
      | none => simp [handle_ws_step, hsub]
    | subscribe events => exact absurd rfl (hns events)
    | ping => simp [handle_ws_step, hsub]
  | badText => simp [handle_ws_step, hsub]
  | closeFrame => simp [handle_ws_step, hsub]
  | disconnect => simp [handle_ws_step, hsub]
  | event e =>
    cases hauth : s.authorized with
    | false => simp [handle_ws_step, hauth, hsub]
    | true =>
      by_cases hev : e.event ∈ l
      · simp [handle_ws_step, hauth, hsub, hev]
      · simp [handle_ws_step, hauth, hsub, hev]

/-- Once a `subscribe` allow-list is installed, every event forwarded during
a subsequent subscribe-free input sequence has its name in the allow-list. -/
theorem run_allowlist (auth_token : Option String) :
    ∀ (rest : List WsInput) (s : WsState) (l : List String),
      s.subscriptions = some l →
      (∀ i ∈ rest, ∀ ev, i ≠ WsInput.cmd (.subscribe ev)) →
      ∀ e, WsOutput.forward e ∈ (handle_ws_run auth_token s rest).2 → e.event ∈ l := by
  intro rest
  induction rest with
  | nil => intro s l _ _ e; simp [handle_ws_run]
  | cons i tail ih =>
    intro s l hsub hns e
    unfold handle_ws_run
    by_cases hcl : s.closed
    · simp [hcl]
    · simp only [hcl, Bool.false_eq_true, not_false_eq_true, if_false, if_neg]
      simp only [List.mem_append]
      rintro (hmem | hmem)
      · exact (step_allowlist auth_token s i l hsub
          (hns i (List.mem_cons_self i tail))).2 e hmem
      · exact ih _ l
          (step_allowlist auth_token s i l hsub (hns i (List.mem_cons_self i tail))).1
          (fun j hj => hns j (List.mem_cons_of_mem i hj)) e hmem

/-- Claim C9: broadcast gating of the WebSocket fan-out. First, with an auth
secret configured and no `connect` command in the input sequence, the
connection stays unauthorized and forwards no broadcast event (arriving
events are dropped, not queued). Second, once a `subscribe` allow-list is
installed, every forwarded event's name lies in the allow-list during any
subscribe-free continuation — so a `["chat"]` subscriber never receives a
`status` event. Third, an authorized connection with no allow-list forwards
every event. -/
theorem ws_event_gating :
    (∀ (t : String) (inputs : List WsInput),
      (∀ i ∈ inputs, ∀ tok, i ≠ WsInput.cmd (.connect tok)) →
      ∀ e, WsOutput.forward e ∉
        (handle_ws_run (some t) (initWsState (some t)) inputs).2) ∧
    (∀ (auth_token : Option String) (s : WsState) (l : List String)
        (rest : List WsInput),
      s.subscriptions = some l →
      (∀ i ∈ rest, ∀ ev, i ≠ WsInput.cmd (.subscribe ev)) →
      ∀ e, WsOutput.forward e ∈ (handle_ws_run auth_token s rest).2 →
        e.event ∈ l) ∧
    (∀ (auth_token : Option String) (s : WsState) (e : WsEvent),
      s.authorized = true → s.subscriptions = none →
      (handle_ws_step auth_token s (.event e)).2 = [WsOutput.forward e]) := by
  refine ⟨?_, ?_, ?_⟩
  · intro t inputs hconn e
    exact run_unauthorized_no_forward (some t) inputs (initWsState (some t)) rfl hconn e
  · intro auth_token s l rest hsub hns e hmem
    exact run_allowlist auth_token rest s l hsub hns e hmem
  · intro auth_token s e hauth hsub
    simp [handle_ws_step, hauth, hsub]

/-- Witness for C9: with a secret configured, a `chat` event published while
the connection is unauthorized (here: after only a ping) is not forwarded;
and an authorized, unfiltered connection forwards a `chat` event. -/
theorem ws_event_gating_witness :
    (WsOutput.forward ⟨"chat", .null⟩ ∉
      (handle_ws_run (some "secret") (initWsState (some "secret"))
        [WsInput.cmd .ping, WsInput.event ⟨"chat", .null⟩]).2) ∧
    (handle_ws_step none ⟨true, none, false⟩ (.event ⟨"chat", .null⟩)).2 =
      [WsOutput.forward ⟨"chat", .null⟩] := by
  constructor
  · exact ws_event_gating.1 "secret" [WsInput.cmd .ping, WsInput.event ⟨"chat", .null⟩]
      (by
        intro i hi tok
        simp only [List.mem_cons, List.not_mem_nil, or_false] at hi
        rcases hi with h | h <;> subst h <;> intro hcontra <;> cases hcontra)
      ⟨"chat", .null⟩
  · exact ws_event_gating.2.2 none ⟨true, none, false⟩ ⟨"chat", .null⟩ rfl rfl

/-! ## C4: binding resolution lemmas -/

/-- With a best candidate of score `bindingScore b` installed, the loop
computes the strictly-greater scan over the remaining matching bindings. -/
theorem resolveBindingLoop_some (channel : String) (acc peer : Option String) :
    ∀ (l : List Binding) (b : Binding),
      resolveBindingLoop channel acc peer (some (bindingScore b, b)) l =
        some (bindingScore (scanMax b (l.filter fun x => bindingMatches x channel acc peer)),
              scanMax b (l.filter fun x => bindingMatches x channel acc peer)) := by
  intro l
  induction l with
  | nil => intro b; rfl
  | cons x t ih =>
    intro b
    by_cases hm : bindingMatches x channel acc peer
    · by_cases hgt : bindingScore x > bindingScore b
      · simp only [resolveBindingLoop, hm, if_true, List.filter_cons, scanMax]
        simp only [hgt, decide_eq_true_eq, if_true, if_pos hgt]
        exact ih x
      · simp only [resolveBindingLoop, hm, if_true, List.filter_cons, scanMax]
        simp only [decide_eq_true_eq, if_neg hgt]
        exact ih b
    · simp only [resolveBindingLoop, hm, List.filter_cons]
      simp only [Bool.false_eq_true, if_false]
      exact ih b

/-- Starting from no candidate, the loop returns the strictly-greater scan
of the matching bindings (or nothing when none match). -/
theorem resolveBindingLoop_none (channel : String) (acc peer : Option String) :
    ∀ l : List Binding,
      resolveBindingLoop channel acc peer none l =
        match l.filter (fun x => bindingMatches x channel acc peer) with
        | [] => none
        | h :: t => some (bindingScore (scanMax h t), scanMax h t) := by
  intro l
  induction l with
  | nil => rfl
  | cons x t ih =>
    by_cases hm : bindingMatches x channel acc peer
    · simp only [resolveBindingLoop, hm, if_true, List.filter_cons]
      exact resolveBindingLoop_some channel acc peer t x
    · simp only [resolveBindingLoop, hm, if_false, List.filter_cons]
      simp only [Bool.false_eq_true, if_false]
      exact ih

/-- `maxBindingScore` unfolds on cons. -/
theorem maxBindingScore_cons (b : Binding) (l : List Binding) :
    maxBindingScore (b :: l) = max (bindingScore b) (maxBindingScore l) := rfl

/-- The strictly-greater scan finds exactly the first element attaining the
maximal score. -/
theorem find_max_eq_scanMax :
    ∀ (t : List Binding) (h : Binding),
      (h :: t).find? (fun b => bindingScore b == maxBindingScore (h :: t)) =
        some (scanMax h t) := by
  intro t
  induction t with
  | nil =>
    intro h
    apply List.find?_cons_of_pos
    simp [maxBindingScore]
  | cons x t2 ih =>
    intro h
    have hmc : maxBindingScore (h :: x :: t2) =
        max (bindingScore h) (max (bindingScore x) (maxBindingScore t2)) := rfl
    have hmc2 : maxBindingScore (h :: t2) =
        max (bindingScore h) (maxBindingScore t2) := rfl
    have hmc3 : maxBindingScore (x :: t2) =
        max (bindingScore x) (maxBindingScore t2) := rfl
    by_cases hgt : bindingScore x > bindingScore h
    · have hhead : ¬(bindingScore h == maxBindingScore (h :: x :: t2)) = true := by
        simp only [beq_iff_eq, hmc]
        omega
      rw [@List.find?_cons_of_neg _
        (fun b => bindingScore b == maxBindingScore (h :: x :: t2)) h (x :: t2) hhead]
      have hmax : maxBindingScore (h :: x :: t2) = maxBindingScore (x :: t2) := by
        rw [hmc, hmc3]
        omega
      rw [hmax]
      simp only [scanMax, if_pos hgt]
      exact ih x
    · simp only [scanMax, if_neg hgt]
      by_cases heq : bindingScore h = maxBindingScore (h :: x :: t2)
      · rw [@List.find?_cons_of_pos _
          (fun b => bindingScore b == maxBindingScore (h :: x :: t2)) h (x :: t2)
          (by simp only [beq_iff_eq]; exact heq)]
        have hh2 : bindingScore h = maxBindingScore (h :: t2) := by
          rw [hmc] at heq
          rw [hmc2]
          omega
        have hfind := ih h
        rw [@List.find?_cons_of_pos _
          (fun b => bindingScore b == maxBindingScore (h :: t2)) h t2
          (by simp only [beq_iff_eq]; exact hh2)] at hfind
        exact hfind
      · have hlt : bindingScore h < maxBindingScore (h :: x :: t2) := by
          rw [hmc] at heq ⊢
          omega
        rw [@List.find?_cons_of_neg _
          (fun b => bindingScore b == maxBindingScore (h :: x :: t2)) h (x :: t2)
          (by simp only [beq_iff_eq]; omega)]
        rw [@List.find?_cons_of_neg _
          (fun b => bindingScore b == maxBindingScore (h :: x :: t2)) x t2
          (by
            simp only [beq_iff_eq]
            rw [hmc] at hlt ⊢
            omega)]
        have hmax : maxBindingScore (h :: x :: t2) = maxBindingScore (h :: t2) := by
          rw [hmc, hmc2]
          omega
        have hfind := ih h
        rw [@List.find?_cons_of_neg _
          (fun b => bindingScore b == maxBindingScore (h :: t2)) h t2
          (by
            simp only [beq_iff_eq]
            rw [hmc2]
            rw [hmc] at hlt
            omega)] at hfind
        rw [hmax]
        exact hfind

/-- Claim C4: `resolve_binding` considers exactly the bindings matching the
inbound (channel, account, peer) — unset fields as wildcards — and returns
the tenant attributes of the earliest-encountered binding with the strictly
highest +2/+2 specificity score (a later equal-score binding never replaces
the current best), or all-absent attributes when no binding matches. -/
theorem resolve_binding_matches_spec
    (bindings : List Binding) (channel : String) (acc peer : Option String) :
    resolve_binding bindings channel acc peer =
      (match specPickBinding (bindings.filter fun b => bindingMatches b channel acc peer) with
       | some b => ⟨b.business_profile_id, b.user_id, b.agent_id⟩
       | none => ⟨none, none, none⟩) := by
  unfold resolve_binding specPickBinding
  rw [resolveBindingLoop_none]
  cases hf : bindings.filter (fun b => bindingMatches b channel acc peer) with
  | nil => rfl
  | cons h t => rw [find_max_eq_scanMax]

/-! ## C8: outbox claim lemmas -/

/-- The claimed rows are the first `limit` eligible rows in `created_at`
order, whether or not any row was selected. -/
theorem claim_outbox_ret_eq (store : List OutboxRecord) (now : Int) (limit : Nat) :
    (claim_outbox_batch store now limit).1 =
      (List.insertionSort createdLE (store.filter (eligibleOutbox now))).take limit := by
  by_cases h : ((List.insertionSort createdLE
      (store.filter (eligibleOutbox now))).take limit).isEmpty
  · simp [claim_outbox_batch, h]
  · simp [claim_outbox_batch, h]

/-- The post-claim store is the element-wise update marking exactly the
claimed ids as `sending` with `last_error` cleared. -/
theorem claim_outbox_store_eq (store : List OutboxRecord) (now : Int) (limit : Nat) :
    (claim_outbox_batch store now limit).2 =
      store.map (fun r =>
        if ((claim_outbox_batch store now limit).1.map fun x => x.id).contains r.id
        then { r with status := "sending", last_error := none } else r) := by
  rw [claim_outbox_ret_eq]
  by_cases h : ((List.insertionSort createdLE
      (store.filter (eligibleOutbox now))).take limit).isEmpty
  · have hempty : (List.insertionSort createdLE
        (store.filter (eligibleOutbox now))).take limit = [] := by
      simpa [List.isEmpty_iff] using h
    simp [claim_outbox_batch, h, hempty]
  · simp [claim_outbox_batch, h]

/-- Every claimed row comes from the eligible subset of the store. -/
theorem claim_outbox_ret_mem (store : List OutboxRecord) (now : Int) (limit : Nat) :
    ∀ r ∈ (claim_outbox_batch store now limit).1,
      r ∈ store.filter (eligibleOutbox now) := by
  intro r hr
  rw [claim_outbox_ret_eq] at hr
  exact (List.perm_insertionSort createdLE _).mem_iff.mp
    ((List.take_sublist _ _).subset hr)

/-- An eligible row is not in the `sending` state. -/
theorem eligible_not_sending (now : Int) (r : OutboxRecord)
    (h : eligibleOutbox now r = true) : r.status ≠ "sending" := by
  intro hs
  unfold eligibleOutbox at h
  rw [hs] at h
  have h1 := (Bool.and_eq_true _ _).mp h |>.1
  exact absurd h1 (by decide)

/-- Counting a disjunction of pointwise-exclusive predicates adds the
counts. -/
theorem countP_or_disjoint {α : Type} (p q : α → Bool) :
    ∀ l : List α, (∀ a ∈ l, ¬(p a = true ∧ q a = true)) →
      l.countP (fun a => p a || q a) = l.countP p + l.countP q := by
  intro l
  induction l with
  | nil => intro _; rfl
  | cons a t ih =>
    intro h
    simp only [List.countP_cons]
    rw [ih (fun b hb => h b (List.mem_cons_of_mem a hb))]
    have ha := h a (List.mem_cons_self a t)
    cases hp : p a <;> cases hq : q a <;> simp [hp, hq] at ha ⊢ <;> omega

/-- Counting the members of a duplicate-free sublist inside a duplicate-free
list gives the sublist's length. -/
theorem countP_contains_of_nodup (A s : List String) (hA : A.Nodup)
    (hs : s.Nodup) (hsub : ∀ a ∈ s, a ∈ A) :
    A.countP (fun a => s.contains a) = s.length := by
  rw [List.countP_eq_length_filter]
  have hnd : (A.filter (fun a => s.contains a)).Nodup := hA.filter _
  have hperm : (A.filter (fun a => s.contains a)).Perm s := by
    rw [List.perm_ext_iff_of_nodup hnd hs]
    intro a
    constructor
    · intro hmem
      exact List.elem_iff.mp (List.mem_filter.mp hmem).2
    · intro ha
      exact List.mem_filter.mpr ⟨hsub a ha, List.elem_iff.mpr ha⟩
  exact hperm.length_eq

/-- The claimed ids are duplicate-free and drawn from the store's ids. -/
theorem claim_outbox_ids_nodup (store : List OutboxRecord) (now : Int)
    (limit : Nat) (hids : (store.map fun r => r.id).Nodup) :
    ((claim_outbox_batch store now limit).1.map fun x => x.id).Nodup ∧
    (∀ a ∈ (claim_outbox_batch store now limit).1.map fun x => x.id,
      a ∈ store.map fun r => r.id) := by
  constructor
  · rw [claim_outbox_ret_eq]
    have h1 : ((store.filter (eligibleOutbox now)).map fun r => r.id).Nodup :=
      ((List.filter_sublist store).map _).nodup hids
    have h2 : ((List.insertionSort createdLE
        (store.filter (eligibleOutbox now))).map fun r => r.id).Nodup :=
      (((List.perm_insertionSort createdLE _).map _).nodup_iff).mpr h1
    exact ((List.take_sublist limit _).map _).nodup h2
  · intro a ha
    obtain ⟨q, hq, hqa⟩ := List.mem_map.mp ha
    have hqF := claim_outbox_ret_mem store now limit q hq
    have hqstore : q ∈ store := (List.filter_sublist store).subset hqF
    exact hqa ▸ List.mem_map_of_mem _ hqstore

/-- Claim C8: `claim_outbox_batch` run sequentially. The claimed batch
consists only of eligible rows (status `pending` or `failed` with
`next_attempt_at` elapsed), has length `min limit #eligible` (exhaustive up
to the limit), is ordered oldest-first by `created_at`, and omits only rows
no older than every claimed row (FIFO); the updated store marks exactly the
claimed rows `sending` with `last_error` cleared (the `sending` count grows
by exactly the batch size); and an immediately repeated claim at the same
instant never returns a row claimed by the first call. -/
theorem claim_outbox_batch_spec (store : List OutboxRecord) (now : Int)
    (limit : Nat) (hids : (store.map fun r => r.id).Nodup) :
    (∀ r ∈ (claim_outbox_batch store now limit).1, eligibleOutbox now r = true) ∧
    (claim_outbox_batch store now limit).1.length =
      min limit (store.filter (eligibleOutbox now)).length ∧
    List.Pairwise createdLE (claim_outbox_batch store now limit).1 ∧
    (∀ r ∈ store.filter (eligibleOutbox now),
      r ∈ (claim_outbox_batch store now limit).1 ∨
      ∀ q ∈ (claim_outbox_batch store now limit).1, q.created_at ≤ r.created_at) ∧
    (∀ r ∈ (claim_outbox_batch store now limit).2,
      (r.id ∈ (claim_outbox_batch store now limit).1.map fun x => x.id) →
      r.status = "sending" ∧ r.last_error = none) ∧
    (claim_outbox_batch store now limit).2.countP (fun r => r.status == "sending") =
      store.countP (fun r => r.status == "sending") +
        (claim_outbox_batch store now limit).1.length ∧
    (∀ r ∈ (claim_outbox_batch (claim_outbox_batch store now limit).2 now limit).1,
      (r.id ∉ (claim_outbox_batch store now limit).1.map fun x => x.id)) := by
  have helig : ∀ r ∈ (claim_outbox_batch store now limit).1,
      eligibleOutbox now r = true := fun r hr =>
    (List.mem_filter.mp (claim_outbox_ret_mem store now limit r hr)).2
  have hnodup := claim_outbox_ids_nodup store now limit hids
  have hinj := List.inj_on_of_nodup_map hids
  have hmem_id : ∀ r ∈ store,
      (r.id ∈ (claim_outbox_batch store now limit).1.map fun x => x.id) →
      eligibleOutbox now r = true := by
    intro r hr hid
    obtain ⟨q, hq, hqa⟩ := List.mem_map.mp hid
    have hqF := claim_outbox_ret_mem store now limit q hq
    have hqstore : q ∈ store := (List.filter_sublist store).subset hqF
    have : q = r := hinj hqstore hr hqa
    exact this ▸ (List.mem_filter.mp hqF).2
  refine ⟨helig, ?_, ?_, ?_, ?_, ?_, ?_⟩
  · rw [claim_outbox_ret_eq, List.length_take,
      (List.perm_insertionSort createdLE _).length_eq]
  · rw [claim_outbox_ret_eq]
    exact List.Pairwise.sublist (List.take_sublist _ _)
      (List.sorted_insertionSort createdLE _)
  · intro r hrF
    have hrS : r ∈ List.insertionSort createdLE (store.filter (eligibleOutbox now)) :=
      (List.perm_insertionSort createdLE _).mem_iff.mpr hrF
    have hpw : List.Pairwise createdLE
        ((List.insertionSort createdLE (store.filter (eligibleOutbox now))).take limit ++
         (List.insertionSort createdLE (store.filter (eligibleOutbox now))).drop limit) := by
      rw [List.take_append_drop]
      exact List.sorted_insertionSort createdLE _
    have hcross := (List.pairwise_append.mp hpw).2.2
    rw [← List.take_append_drop limit
      (List.insertionSort createdLE (store.filter (eligibleOutbox now)))] at hrS
    rcases List.mem_append.mp hrS with h | h
    · left
      rw [claim_outbox_ret_eq]
      exact h
    · right
      intro q hq
      rw [claim_outbox_ret_eq] at hq
      exact hcross q hq r h
  · intro r hr hid
    rw [claim_outbox_store_eq] at hr
    obtain ⟨r0, hr0, hupd⟩ := List.mem_map.mp hr
    by_cases hc : (((claim_outbox_batch store now limit).1.map fun x => x.id).contains
        r0.id) = true
    · rw [if_pos hc] at hupd
      rw [← hupd]
      exact ⟨rfl, rfl⟩
    · rw [if_neg hc] at hupd
      subst hupd
      exact absurd (List.elem_iff.mpr hid) hc
  · rw [claim_outbox_store_eq, List.countP_map]
    have hpt : ∀ r0 ∈ store,
        (((fun r => r.status == "sending") ∘ fun r =>
          if ((claim_outbox_batch store now limit).1.map fun x => x.id).contains r.id
          then { r with status := "sending", last_error := none } else r) r0 = true) ↔
        (((((claim_outbox_batch store now limit).1.map fun x => x.id).contains r0.id) ||
          (r0.status == "sending")) = true) := by
      intro r0 _
      by_cases hc : (((claim_outbox_batch store now limit).1.map fun x => x.id).contains
          r0.id) = true
      · rw [Function.comp_apply, if_pos hc, hc]
        exact ⟨fun _ => rfl, fun _ => rfl⟩
      · have hcf : (((claim_outbox_batch store now limit).1.map fun x => x.id).contains
            r0.id) = false := by
          cases hval : (((claim_outbox_batch store now limit).1.map
              fun x => x.id).contains r0.id)
          · rfl
          · exact absurd hval hc
        rw [Function.comp_apply, if_neg hc, hcf]
        exact Iff.rfl
    rw [List.countP_congr hpt]
    have hdisj : ∀ r ∈ store,
        ¬((((claim_outbox_batch store now limit).1.map fun x => x.id).contains r.id)
            = true ∧
          (r.status == "sending") = true) := by
      rintro r hr ⟨hc, hs⟩
      have hidmem := List.elem_iff.mp hc
      have helr := hmem_id r hr hidmem
      exact eligible_not_sending now r helr (by simpa using hs)
    rw [countP_or_disjoint _ _ store hdisj]
    have hcount : store.countP (fun r =>
        ((claim_outbox_batch store now limit).1.map fun x => x.id).contains r.id) =
        ((claim_outbox_batch store now limit).1.map fun x => x.id).length := by
      have hmapc := List.countP_map
        (fun s => ((claim_outbox_batch store now limit).1.map fun x => x.id).contains s)
        (fun r : OutboxRecord => r.id) store
      have hfun : (fun r : OutboxRecord =>
          ((claim_outbox_batch store now limit).1.map fun x => x.id).contains r.id) =
          ((fun s => ((claim_outbox_batch store now limit).1.map
              fun x => x.id).contains s) ∘ fun r : OutboxRecord => r.id) := rfl
      rw [hfun, ← hmapc]
      exact countP_contains_of_nodup _ _ hids hnodup.1 hnodup.2
    rw [hcount, List.length_map]
    omega
  · intro r hr2 hid
    have hr2F := claim_outbox_ret_mem _ now limit r hr2
    have hr2elig : eligibleOutbox now r = true := (List.mem_filter.mp hr2F).2
    have hr2store : r ∈ (claim_outbox_batch store now limit).2 :=
      (List.filter_sublist _).subset hr2F
    rw [claim_outbox_store_eq] at hr2store
    obtain ⟨r0, hr0, hupd⟩ := List.mem_map.mp hr2store
    by_cases hc : (((claim_outbox_batch store now limit).1.map fun x => x.id).contains
        r0.id) = true
    · rw [if_pos hc] at hupd
      have : r.status = "sending" := by rw [← hupd]
      exact eligible_not_sending now r hr2elig this
    · rw [if_neg hc] at hupd
      subst hupd
      exact absurd (List.elem_iff.mpr hid) hc

/-- Witness for C8: claiming 2 of 3 eligible rows at a concrete store
returns a batch of size `min 2 3 = 2`, via `claim_outbox_batch_spec`. -/
theorem claim_outbox_batch_spec_witness :
    (claim_outbox_batch
      [⟨"a", .null, "pending", 0, 5, none, 3⟩,
       ⟨"b", .null, "failed", 2, 5, some "boom", 1⟩,
       ⟨"c", .null, "pending", 0, 5, none, 2⟩] 10 2).1.length =
      min 2 (([⟨"a", .null, "pending", 0, 5, none, 3⟩,
        ⟨"b", .null, "failed", 2, 5, some "boom", 1⟩,
        ⟨"c", .null, "pending", 0, 5, none, 2⟩] :
          List OutboxRecord).filter (eligibleOutbox 10)).length :=
  (claim_outbox_batch_spec
    [⟨"a", .null, "pending", 0, 5, none, 3⟩,
     ⟨"b", .null, "failed", 2, 5, some "boom", 1⟩,
     ⟨"c", .null, "pending", 0, 5, none, 2⟩] 10 2
    (by simp)).2.1

end AgentPing
